import Mathlib

/-!
Verification of the similarity-search and indexing engine of the
image_search repository, as a shallow embedding in Lean 4.

Conventions of the embedding:
* Python floats become `ℚ` (the engine only compares and sorts scores,
  and the concrete inputs used here are exact decimal fractions).
* Python dicts become association lists (`List (String × α)`) in
  insertion order; assignment `d[k] = v` keeps the position of an
  existing key and appends a fresh one, exactly as Python dicts do.
* A fallible Python call (`extract_features`, `compare_features`,
  `pickle.load`) becomes an `Option`-valued function; `none` covers both
  a `None` result and a raised-and-caught exception, since the source
  always handles the two the same way (skip / report failure).
* Qt signal emissions become elements of an explicit event-trace list,
  in emission order.
* A worker's cooperative cancellation flag (`self.running`, cleared once
  by `stop()` and never set again) becomes a schedule
  `runningAt : Nat → Bool` giving the value the loop reads at its i-th
  check; the scenarios instantiate it with `fun i => decide (i < k)`.
* `int(x)` on a non-negative Python float quotient becomes `Nat`
  division (both truncate toward zero).
* Threads of `MultiIndexSearch` run pure computations and are joined
  before the merge; they are modelled by folding over `index_paths` in
  list order (the merge reads the per-index dict in insertion order).
-/

namespace ImageSearch

/-- Ranking relation used to model Python's
`results.sort(key=lambda x: x[1], reverse=True)`: `a` may come before
`b` iff `b`'s score is at most `a`'s.  A stable sort by this relation
(insertion sort below) is exactly what Python's stable descending sort
produces. -/
def scoreLE (a b : String × ℚ) : Prop := b.2 ≤ a.2

instance : DecidableRel scoreLE := fun a b => inferInstanceAs (Decidable (b.2 ≤ a.2))

instance : IsTotal (String × ℚ) scoreLE := ⟨fun a b => le_total b.2 a.2⟩

instance : IsTrans (String × ℚ) scoreLE := ⟨fun _ _ _ h1 h2 => le_trans h2 h1⟩

/-- Stable descending sort by score, modelling
`results.sort(key=lambda x: x[1], reverse=True)` (batch_search.py line
110 and 180, search_worker.py line 115). -/
def sortDesc (l : List (String × ℚ)) : List (String × ℚ) :=
  List.insertionSort scoreLE l

/-- Python dict lookup `d[k]` / `k in d` on an insertion-ordered
association list. -/
def dictFind? (l : List (String × α)) (k : String) : Option α :=
  (l.find? (fun e => e.1 == k)).map (fun e => e.2)

/-- Python dict assignment `d[k] = v`: replace the value of an existing
key in place, append a fresh key. -/
def dictSet (l : List (String × α)) (k : String) (v : α) : List (String × α) :=
  if l.any (fun e => e.1 == k) then
    l.map (fun e => if e.1 == k then (k, v) else e)
  else
    l ++ [(k, v)]

/-- A feature extractor (feature_extractors package): the engine only
uses its stable `name`, `extract_features` and `compare_features`.
`none` models `None` results and raised exceptions alike. -/
structure Extractor (F : Type) where
  name : String
  extract_features : String → Option F
  compare_features : F → F → Option ℚ

/-- The numpy-ish operations batch_search.py applies to opaque feature
payloads: `flat` models `x.reshape(-1) if hasattr(x,'ndim') and x.ndim > 1
else x`; `shape` models the `shape` attribute (`none` when the payload,
e.g. a plain list, has no such attribute); `flen` models Python `len`. -/
structure PyOps (F : Type) where
  flat : F → F
  shape : F → Option (List Nat)
  flen : F → Nat

/-- The pickled index record written by feature_indexer.py lines
110-115: `{'extractor_name': …, 'features': …, 'timestamp': …}`. -/
structure IndexData (F : Type) where
  features : List (String × F)
  extractor_name : String
  timestamp : ℚ
deriving DecidableEq

/-- BatchSearchProcessor (batch_search.py line 12): holds the
per-instance index cache `self.indexes = {}`. -/
structure BatchSearchProcessor (F : Type) where
  indexes : List (String × IndexData F)
deriving DecidableEq

/-- `BatchSearchProcessor.load_index` (batch_search.py lines 23-39):
reads storage at `index_path`; on success stores the record in the
cache and returns `true`, on any failure returns `false` leaving the
cache unchanged.  `storage` maps a path to the record its bytes decode
to, `none` for a missing or corrupt file. -/
def load_index (storage : String → Option (IndexData F))
    (proc : BatchSearchProcessor F) (index_path : String) :
    BatchSearchProcessor F × Bool :=
  match storage index_path with
  | some d => (⟨dictSet proc.indexes index_path d⟩, true)
  | none => (proc, false)

/-- The entry loop of `search_in_index` (batch_search.py lines 81-107),
instrumented: returns the kept `(path, similarity)` pairs in entry
order, and the list of paths for which `compare_features` was actually
called.  Per entry: skip if the file no longer exists; flatten;
skip (without comparing) when both flattened shapes are present and
differ; call compare, a raised exception (`none`) skips the entry;
keep the pair when `similarity >= threshold`. -/
def scanEntries (ops : PyOps F) (extractor : Extractor F)
    (fsExists : String → Bool) (q : F) (thr : ℚ) :
    List (String × F) → List (String × ℚ) × List String
  | [] => ([], [])
  | (p, fv) :: rest =>
    let tail := scanEntries ops extractor fsExists q thr rest
    if fsExists p then
      let fv2 := ops.flat fv
      let mismatch : Bool :=
        match ops.shape q, ops.shape fv2 with
        | some s1, some s2 => decide (s1 ≠ s2)
        | _, _ => false
      if mismatch then tail
      else
        match extractor.compare_features q fv2 with
        | none => (tail.1, p :: tail.2)
        | some sim =>
          ((if thr ≤ sim then (p, sim) :: tail.1 else tail.1), p :: tail.2)
    else tail

/-- Body of `search_in_index` once the record is available
(batch_search.py lines 59-116): look the extractor up by the record's
`extractor_name` (empty result when absent), flatten the query, scan
the entries, sort descending, truncate when `max_results > 0`. -/
def search_in_index_core (avail : List (Extractor F)) (ops : PyOps F)
    (fsExists : String → Bool) (query : F) (index_data : IndexData F)
    (thr : ℚ) (max_results : Nat) : List (String × ℚ) :=
  match avail.find? (fun ex => ex.name == index_data.extractor_name) with
  | none => []
  | some extractor =>
    let q := ops.flat query
    let sorted := sortDesc (scanEntries ops extractor fsExists q thr index_data.features).1
    if 0 < max_results then sorted.take max_results else sorted

/-- `BatchSearchProcessor.search_in_index` (batch_search.py lines
41-116).  Returns the updated processor, the result list, and the
number of storage reads performed (0 on a cache hit, 1 otherwise). -/
def search_in_index (storage : String → Option (IndexData F))
    (avail : List (Extractor F)) (ops : PyOps F) (fsExists : String → Bool)
    (proc : BatchSearchProcessor F) (query : F) (index_path : String)
    (thr : ℚ) (max_results : Nat) :
    BatchSearchProcessor F × List (String × ℚ) × Nat :=
  if (dictFind? proc.indexes index_path).isSome then
    match dictFind? proc.indexes index_path with
    | some d => (proc, search_in_index_core avail ops fsExists query d thr max_results, 0)
    | none => (proc, [], 0)
  else
    match load_index storage proc index_path with
    | (proc2, false) => (proc2, [], 1)
    | (proc2, true) =>
      match dictFind? proc2.indexes index_path with
      | some d => (proc2, search_in_index_core avail ops fsExists query d thr max_results, 1)
      | none => (proc2, [], 1)

/-- One step of the deduplication loop of `search_in_multiple_indexes`
(batch_search.py lines 173-176): insert a fresh path, or overwrite the
stored score when the new one is strictly greater. -/
def dedupStep (acc : List (String × ℚ)) (x : String × ℚ) : List (String × ℚ) :=
  match dictFind? acc x.1 with
  | none => acc ++ [x]
  | some s => if s < x.2 then dictSet acc x.1 x.2 else acc

/-- The `unique_results` dict built over `all_results`
(batch_search.py lines 173-176), as a list in Python-dict order. -/
def dedupMax (l : List (String × ℚ)) : List (String × ℚ) :=
  l.foldl dedupStep []

/-- The merge step of the multi-index search (batch_search.py lines
167-180): deduplicate keeping the best score, then sort descending. -/
def mergeStep (l : List (String × ℚ)) : List (String × ℚ) :=
  sortDesc (dedupMax l)

/-- `MultiIndexSearch.search_in_multiple_indexes` (batch_search.py
lines 130-186).  Each per-index thread calls `search_in_index` with the
caller's `max_results` (line 152) and stores its output in
`results_per_index` keyed by index path; after the join the outputs are
concatenated, deduplicated by best score, sorted descending, and
truncated again when `max_results > 0`. -/
def search_in_multiple_indexes (storage : String → Option (IndexData F))
    (avail : List (Extractor F)) (ops : PyOps F) (fsExists : String → Bool)
    (proc : BatchSearchProcessor F) (query : F) (index_paths : List String)
    (thr : ℚ) (max_results : Nat) :
    BatchSearchProcessor F × List (String × ℚ) :=
  let fin := index_paths.foldl
    (fun (acc : BatchSearchProcessor F × List (String × List (String × ℚ))) p =>
      let r := search_in_index storage avail ops fsExists acc.1 query p thr max_results
      (r.1, dictSet acc.2 p r.2.1))
    (proc, [])
  let all_results := (fin.2.map (fun e => e.2)).flatten
  let combined := mergeStep all_results
  (fin.1, if 0 < max_results then combined.take max_results else combined)

/-- Per-index outputs of the fan-out, as a plain list in `index_paths`
order, each task run with limit `lim` and the cache state left by its
predecessors. -/
def perIndexOutputs (storage : String → Option (IndexData F))
    (avail : List (Extractor F)) (ops : PyOps F) (fsExists : String → Bool)
    (query : F) (thr : ℚ) (lim : Nat) :
    BatchSearchProcessor F → List String →
    BatchSearchProcessor F × List (List (String × ℚ))
  | proc, [] => (proc, [])
  | proc, p :: ps =>
    let r := search_in_index storage avail ops fsExists proc query p thr lim
    let rest := perIndexOutputs storage avail ops fsExists query thr lim r.1 ps
    (rest.1, r.2.1 :: rest.2)

/-- The multi-index search behaviour claim C1 asserts, following the
spec's words: every per-index Single-Index Search runs with an
unbounded limit (0), and the limit is applied only after the merged
outputs are deduplicated and sorted. -/
def searchManySpecClaimed (storage : String → Option (IndexData F))
    (avail : List (Extractor F)) (ops : PyOps F) (fsExists : String → Bool)
    (proc : BatchSearchProcessor F) (query : F) (index_paths : List String)
    (thr : ℚ) (max_results : Nat) : List (String × ℚ) :=
  let per := perIndexOutputs storage avail ops fsExists query thr 0 proc index_paths
  let combined := mergeStep per.2.flatten
  if 0 < max_results then combined.take max_results else combined

/-- Best score of a path over a flat result list: the value the merge
step is supposed to keep for a duplicated path. -/
def bestScore? (p : String) : List (String × ℚ) → Option ℚ
  | [] => none
  | x :: rest =>
    let r := bestScore? p rest
    if x.1 = p then
      some (match r with
            | none => x.2
            | some s => max x.2 s)
    else r

/-- Combination of two optional best scores: the best over the union of
the two score sources. -/
def optJoinMax : Option ℚ → Option ℚ → Option ℚ
  | none, b => b
  | some s, none => some s
  | some s, some t => some (max s t)

/-- Signals a `SearchWorker` can emit (search_worker.py lines 20-23). -/
inductive SearchEvent where
  | progress (v : Nat)
  | resultReady (rs : List (String × ℚ))
  | error (msg : String)
  | cancelled
deriving DecidableEq, Repr

/-- The per-file body of the `SearchWorker.run` scan loop
(search_worker.py lines 100-112): extract the file's features (failure
or an empty payload skips the file), compare them to the query (failure
skips), keep the pair when `similarity >= threshold`. -/
def keptEntry (ops : PyOps F) (extractor : Extractor F) (qf : F)
    (thr : ℚ) (f : String) : Option (String × ℚ) :=
  match extractor.extract_features f with
  | none => none
  | some cf =>
    if 0 < ops.flen cf then
      match extractor.compare_features qf cf with
      | none => none
      | some sim => if thr ≤ sim then some (f, sim) else none
    else none

/-- The scan loop of `SearchWorker.run` (search_worker.py lines
88-112), instrumented with the emitted events and the kept results.
Before file `i` the loop reads the running flag: when cleared it emits
the single `search_cancelled` signal and breaks (the code after the
loop still runs; see `searchWorkerRun`).  Otherwise it emits
`int(100 * i / n)` and runs `keptEntry` on the file. -/
def searchWorkerLoop (ops : PyOps F) (extractor : Extractor F) (qf : F)
    (thr : ℚ) (n : Nat) (runningAt : Nat → Bool) :
    Nat → List String → List SearchEvent × List (String × ℚ)
  | _, [] => ([], [])
  | i, f :: rest =>
    if runningAt i then
      let tail := searchWorkerLoop ops extractor qf thr n runningAt (i + 1) rest
      (SearchEvent.progress (100 * i / n) :: tail.1,
       match keptEntry ops extractor qf thr f with
       | some r => r :: tail.2
       | none => tail.2)
    else ([SearchEvent.cancelled], [])

/-- The kept results of a full, uncancelled linear scan, in file
order. -/
def workerKept (ops : PyOps F) (extractor : Extractor F) (qf : F)
    (thr : ℚ) (files : List String) : List (String × ℚ) :=
  files.filterMap (keptEntry ops extractor qf thr)

/-- `SearchWorker.run` (search_worker.py lines 56-126) as an event
trace.  Query extraction failure or an empty query payload emits one
error and returns; an empty file list emits an empty result list and
progress 100; otherwise the scan loop runs and — whether it finished or
broke out on cancellation — the sorted, truncated results and a final
progress 100 are emitted (the `break` on line 95 does not skip lines
114-123). -/
def searchWorkerRun (ops : PyOps F) (extractor : Extractor F) (thr : ℚ)
    (max_results : Nat) (query_image_path : String) (files : List String)
    (runningAt : Nat → Bool) : List SearchEvent :=
  match extractor.extract_features query_image_path with
  | none => [SearchEvent.error "Не удалось извлечь признаки из изображения запроса"]
  | some qf =>
    if ops.flen qf = 0 then
      [SearchEvent.error "Не удалось извлечь признаки из изображения запроса"]
    else
      let n := files.length
      if n = 0 then
        [SearchEvent.resultReady [], SearchEvent.progress 100]
      else
        let r := searchWorkerLoop ops extractor qf thr n runningAt 0 files
        let sorted := sortDesc r.2
        let final := if 0 < max_results then sorted.take max_results else sorted
        r.1 ++ [SearchEvent.resultReady final, SearchEvent.progress 100]

/-- Signals a `FeatureIndexer` can emit (feature_indexer.py lines
19-21). -/
inductive IndexEvent where
  | progress (v : Nat)
  | completed (path : String)
  | failed (msg : String)
deriving DecidableEq, Repr

/-- Message of feature_indexer.py line 90. -/
def cancelMsg : String := "Индексация была отменена"

/-- Message of feature_indexer.py line 78. -/
def noImagesMsg : String := "В указанной папке не найдены изображения"

/-- The per-file dict update of the `FeatureIndexer.run` loop
(feature_indexer.py lines 93-103): extract the file's features and
insert them under the file's path; a `None` result or a raised
exception skips the insertion. -/
def indexAccStep (extractor : Extractor F) (acc : List (String × F))
    (f : String) : List (String × F) :=
  match extractor.extract_features f with
  | some fv => dictSet acc f fv
  | none => acc

/-- The file loop of `FeatureIndexer.run` (feature_indexer.py lines
85-107), instrumented: events, the features dict when the loop ran to
completion (`none` when it returned on cancellation), and the files on
which `extract_features` was called.  Before file `i` the loop reads
the running flag: when cleared it emits `index_failed` with the
cancellation message and returns.  Otherwise it runs `indexAccStep` on
the file and emits `int(100 * (i+1) / n)`. -/
def featureIndexerLoop (extractor : Extractor F) (n : Nat)
    (runningAt : Nat → Bool) :
    Nat → List (String × F) → List String →
    List IndexEvent × Option (List (String × F)) × List String
  | _, acc, [] => ([], some acc, [])
  | i, acc, f :: rest =>
    if runningAt i then
      let tail := featureIndexerLoop extractor n runningAt (i + 1) (indexAccStep extractor acc f) rest
      (IndexEvent.progress (100 * (i + 1) / n) :: tail.1, tail.2.1, f :: tail.2.2)
    else ([IndexEvent.failed cancelMsg], none, [])

/-- `FeatureIndexer.run` (feature_indexer.py lines 61-121) over an
already-enumerated file list: events, the record pickled to
`output_path` (`none` when nothing was written), and the extraction
log.  An empty folder fails with the no-images message before any
extraction; on normal completion the record is written and
`index_completed` carries the output path. -/
def featureIndexerRun (extractor : Extractor F) (output_path : String)
    (files : List String) (now : ℚ) (runningAt : Nat → Bool) :
    List IndexEvent × Option (IndexData F) × List String :=
  if files.length = 0 then ([IndexEvent.failed noImagesMsg], none, [])
  else
    let r := featureIndexerLoop extractor files.length runningAt 0 [] files
    match r.2.1 with
    | some fd =>
      (r.1 ++ [IndexEvent.completed output_path], some ⟨fd, extractor.name, now⟩, r.2.2)
    | none => (r.1, none, r.2.2)

/-- The features dict a full, uncancelled indexer run accumulates. -/
def buildFeaturesDict (extractor : Extractor F) (files : List String) :
    List (String × F) :=
  files.foldl (indexAccStep extractor) []

/-- The progress values of an indexer event trace, in emission order. -/
def progressValues (trace : List IndexEvent) : List Nat :=
  trace.filterMap (fun e =>
    match e with
    | IndexEvent.progress v => some v
    | _ => none)

/-- Signals an `IndexWorker` can emit (index_worker.py lines 20-23):
unlike the inner indexer it has a distinct cancellation signal. -/
inductive WorkerEvent where
  | progress (v : Nat)
  | completed (path : String)
  | failed (msg : String)
  | cancelled
deriving DecidableEq, Repr

/-- `IndexWorker.handle_index_completed` (index_worker.py lines 75-89):
re-routes a completion to `index_cancelled` when the worker's
cancellation flag is set. -/
def handle_index_completed (cancelledFlag : Bool) (index_path : String) : WorkerEvent :=
  if cancelledFlag then WorkerEvent.cancelled else WorkerEvent.completed index_path

/-- `IndexWorker.handle_index_failed` (index_worker.py lines 91-105):
re-routes a failure (including the indexer's cancellation message) to
`index_cancelled` when the worker's cancellation flag is set. -/
def handle_index_failed (cancelledFlag : Bool) (msg : String) : WorkerEvent :=
  if cancelledFlag then WorkerEvent.cancelled else WorkerEvent.failed msg

/-- The worker-level event trace: progress passes through
(index_worker.py line 65), terminal signals go through the two handlers
with the worker's cancellation-flag value at handling time. -/
def indexWorkerEvents (cancelledFlag : Bool) : List IndexEvent → List WorkerEvent :=
  List.map (fun e =>
    match e with
    | IndexEvent.progress v => WorkerEvent.progress v
    | IndexEvent.completed p => handle_index_completed cancelledFlag p
    | IndexEvent.failed m => handle_index_failed cancelledFlag m)

/-- Signals an `IndexedSearchWorker` can emit (main_window.py lines
24-26). -/
inductive ISEvent where
  | progress (v : Nat)
  | resultReady (rs : List (String × ℚ))
  | error (msg : String)
deriving DecidableEq, Repr

/-- `IndexedSearchWorker.run` (main_window.py lines 28-80) as an event
trace plus the number of storage reads.  Every run starts from the
fresh `BatchSearchProcessor()` its `__init__` creates (line 45), so its
cache is empty: nothing is shared between consecutive searches. -/
def indexedSearchWorkerRun (storage : String → Option (IndexData F))
    (avail : List (Extractor F)) (ops : PyOps F) (fsExists : String → Bool)
    (extractor : Extractor F) (query_image_path index_path : String)
    (thr : ℚ) (max_results : Nat) : List ISEvent × Nat :=
  match extractor.extract_features query_image_path with
  | none =>
    ([ISEvent.progress 10, ISEvent.error "Не удалось извлечь признаки из изображения запроса"], 0)
  | some qf =>
    let r := search_in_index storage avail ops fsExists ⟨[]⟩ qf index_path thr max_results
    ([ISEvent.progress 10, ISEvent.progress 30, ISEvent.progress 90,
      ISEvent.resultReady r.2.1, ISEvent.progress 100], r.2.2)

/-- An entry of `IndexDialog.existing_indexes` (index_dialog.py lines
85-92): the path of the persisted index file and the extractor matched
from its file name.  The dialog never loads the record itself. -/
structure ExistingIndex (F : Type) where
  path : String
  extractor : Extractor F

/-- The "update the selected index" path of `IndexDialog.start_indexing`
(index_dialog.py lines 250-301): it takes the extractor and output path
from the selected existing index and runs a plain `IndexWorker` →
`FeatureIndexer` over the folder.  The existing record's entries are
never read: every enumerated file is re-extracted and the output file
is overwritten with the freshly built record. -/
def updateModeRun (sel : ExistingIndex F) (files : List String) (now : ℚ)
    (runningAt : Nat → Bool) :
    List IndexEvent × Option (IndexData F) × List String :=
  featureIndexerRun sel.extractor sel.path files now runningAt

/-- Trivial array operations for scenarios whose features are bare
scores: no `ndim`/`shape` attribute, `len` 1 (as for a one-element
payload). -/
def opsQ : PyOps ℚ := ⟨id, fun _ => none, fun _ => 1⟩

/-- Scenario extractor over `F := ℚ`: extraction always succeeds and
comparison returns the stored feature itself as the similarity, so an
index entry `(p, s)` scores exactly `s` against any query. -/
def exQ : Extractor ℚ := ⟨"E", fun _ => some 1, fun _ f => some f⟩

/-- Scenario extractor list containing just `exQ`. -/
def availQ : List (Extractor ℚ) := [exQ]

/-- Scenario filesystem on which every path exists. -/
def fsAll : String → Bool := fun _ => true

/-- The rational 1/2 as a reduced-fraction literal: score constants of
the concrete scenarios are written this way because `Rat.div` does not
kernel-reduce, while comparisons of literals do, so closed computations
can be settled by `decide`. -/
def half : ℚ := ⟨1, 2, by decide, by decide⟩

/-- The rational 2/5 as a reduced-fraction literal. -/
def twoFifths : ℚ := ⟨2, 5, by decide, by decide⟩

/-- The rational 3/5 as a reduced-fraction literal. -/
def threeFifths : ℚ := ⟨3, 5, by decide, by decide⟩

/-- The rational 3/10 as a reduced-fraction literal. -/
def threeTenths : ℚ := ⟨3, 10, by decide, by decide⟩

/-- The rational 7/10 as a reduced-fraction literal. -/
def sevenTenths : ℚ := ⟨7, 10, by decide, by decide⟩

/-- The rational 9/10 as a reduced-fraction literal. -/
def nineTenths : ℚ := ⟨9, 10, by decide, by decide⟩

/-- Storage for the C1 counterexample: index i1 holds B at score 2/5;
index i2 holds T and B, both at score 1/2. -/
def storageC1 : String → Option (IndexData ℚ) :=
  fun k =>
    if k = "i1" then some ⟨[("B", twoFifths)], "E", 0⟩
    else if k = "i2" then some ⟨[("T", half), ("B", half)], "E", 0⟩
    else none

/-- Storage for the C6 two-store scenario: both stores contain path P,
with similarities 3/5 and 9/10. -/
def storageC6 : String → Option (IndexData ℚ) :=
  fun k =>
    if k = "k1" then some ⟨[("P", threeFifths)], "E", 0⟩
    else if k = "k2" then some ⟨[("P", nineTenths)], "E", 0⟩
    else none

/-- Storage contents for the C8 counterexample before the index file is
rewritten: P scores 9/10. -/
def storageOld : String → Option (IndexData ℚ) :=
  fun k => if k = "k" then some ⟨[("P", nineTenths)], "E", 0⟩ else none

/-- Storage contents for the C8 counterexample after the index file is
rewritten: P scores 2/5. -/
def storageNew : String → Option (IndexData ℚ) :=
  fun k => if k = "k" then some ⟨[("P", twoFifths)], "E", 0⟩ else none

/-- Scenario extractor whose fresh extraction yields the score 2 for
every file, used to exhibit the update-mode behaviour on a file whose
stored feature was 1. -/
def exC4 : Extractor ℚ := ⟨"E", fun _ => some 2, fun _ f => some f⟩

/-- An existing index record whose single entry maps file a to the
feature value 1. -/
def existingC4 : IndexData ℚ := ⟨[("a", 1)], "E", 0⟩

/-- Array operations for the C10 shape scenario over `F := List ℚ`:
payloads are 1-D arrays whose shape is their length. -/
def opsL : PyOps (List ℚ) := ⟨id, fun v => some [v.length], fun v => v.length⟩

/-- Extractor for the C10 shape scenario: similarity is the first
component of the stored payload. -/
def exL : Extractor (List ℚ) := ⟨"E", fun _ => some [1], fun _ f => some (f.headD 0)⟩

/-- Scenario extractor list containing just `exL`. -/
def availL : List (Extractor (List ℚ)) := [exL]

/-- An index record tagged with an extractor name matching no available
extractor. -/
def dataX : IndexData ℚ := ⟨[("P", 1)], "X", 0⟩

/-- An index record for the C10 shape scenario: entry good is a
one-element payload (its shape matches a one-element query), entry bad
a two-element payload (mismatched shape). -/
def dataL : IndexData (List ℚ) := ⟨[("good", [1]), ("bad", [1, 2])], "E", 0⟩

/-! Properties of the stable descending sort -/

theorem sortDesc_perm (l : List (String × ℚ)) : (sortDesc l).Perm l :=
  List.perm_insertionSort scoreLE l

theorem mem_sortDesc {l : List (String × ℚ)} {x : String × ℚ} :
    x ∈ sortDesc l ↔ x ∈ l :=
  List.mem_insertionSort scoreLE

theorem sortDesc_pairwise (l : List (String × ℚ)) :
    (sortDesc l).Pairwise scoreLE :=
  List.sorted_insertionSort scoreLE l

theorem pairwise_take_drop_le {l : List (String × ℚ)} {N : Nat}
    {x y : String × ℚ} (hp : l.Pairwise scoreLE)
    (hx : x ∈ l.take N) (hy : y ∈ l.drop N) : y.2 ≤ x.2 := by
  have h : (l.take N ++ l.drop N).Pairwise scoreLE := by
    rw [List.take_append_drop]
    exact hp
  exact (List.pairwise_append.mp h).2.2 x hx y hy

theorem length_take_le (l : List (String × ℚ)) (N : Nat) :
    (l.take N).length ≤ N := by
  rw [List.length_take]
  exact min_le_left _ _

/-! Properties of the Python-dict model -/

theorem dictFind?_cons (e : String × α) (l : List (String × α)) (k : String) :
    dictFind? (e :: l) k = if e.1 = k then some e.2 else dictFind? l k := by
  by_cases h : e.1 = k
  · simp [dictFind?, List.find?_cons_of_pos, h]
  · simp [dictFind?, List.find?_cons_of_neg, h]

theorem dictFind?_eq_none_iff (l : List (String × α)) (k : String) :
    dictFind? l k = none ↔ k ∉ l.map Prod.fst := by
  induction l with
  | nil => simp [dictFind?]
  | cons e l ih =>
    rw [dictFind?_cons]
    by_cases h : e.1 = k
    · simp [h]
    · rw [if_neg h, ih, List.map_cons]
      simp only [List.mem_cons, not_or]
      constructor
      · intro hk
        exact ⟨fun he2 => h he2.symm, hk⟩
      · intro hc
        exact hc.2

theorem dictAny_eq_isSome (l : List (String × α)) (k : String) :
    l.any (fun e => e.1 == k) = (dictFind? l k).isSome := by
  induction l with
  | nil => simp [dictFind?]
  | cons e l ih =>
    rw [List.any_cons, dictFind?_cons]
    by_cases h : e.1 = k <;> simp [h, ih]

theorem dictFind?_mapReplace (l : List (String × α)) (k : String) (v : α)
    (p : String) (h : p ≠ k) :
    dictFind? (l.map (fun e => if e.1 == k then (k, v) else e)) p = dictFind? l p := by
  induction l with
  | nil => rfl
  | cons e l ih =>
    rw [List.map_cons]
    by_cases he : e.1 = k
    · rw [if_pos (by simp [he]), dictFind?_cons, dictFind?_cons,
        if_neg (fun hk => h hk.symm), if_neg (fun hp => h (he ▸ hp).symm)]
      exact ih
    · rw [if_neg (by simp [he]), dictFind?_cons, dictFind?_cons]
      by_cases hp : e.1 = p
      · rw [if_pos hp, if_pos hp]
      · rw [if_neg hp, if_neg hp]
        exact ih

theorem dictFind?_append_single (l : List (String × α)) (k : String) (v : α)
    (p : String) :
    dictFind? (l ++ [(k, v)]) p =
      (dictFind? l p).elim (if k = p then some v else none) some := by
  induction l with
  | nil => simp [dictFind?_cons, dictFind?]
  | cons e l ih =>
    rw [List.cons_append, dictFind?_cons, dictFind?_cons]
    by_cases hp : e.1 = p
    · simp [hp]
    · simp only [hp, if_false]
      exact ih

theorem dictFind?_dictSet_self (l : List (String × α)) (k : String) (v : α) :
    dictFind? (dictSet l k v) k = some v := by
  induction l with
  | nil => simp [dictSet, dictFind?_cons]
  | cons e l ih =>
    by_cases he : e.1 = k
    · have hany : (e :: l).any (fun x => x.1 == k) = true := by simp [he]
      rw [dictSet, if_pos hany, List.map_cons, if_pos (by simp [he]), dictFind?_cons,
        if_pos rfl]
    · rw [dictSet]
      cases hany : l.any (fun x => x.1 == k) with
      | true =>
        rw [if_pos (by simp [hany]), List.map_cons, if_neg (by simp [he]), dictFind?_cons,
          if_neg he]
        have h2 : dictSet l k v = l.map (fun e => if e.1 == k then (k, v) else e) := by
          rw [dictSet, if_pos hany]
        rw [← h2]
        exact ih
      | false =>
        rw [if_neg (by simp [he, hany]), List.cons_append, dictFind?_cons, if_neg he]
        have h2 : dictSet l k v = l ++ [(k, v)] := by rw [dictSet, if_neg (by simp [hany])]
        rw [← h2]
        exact ih

theorem dictFind?_dictSet_ne (l : List (String × α)) (k : String) (v : α)
    (p : String) (h : p ≠ k) :
    dictFind? (dictSet l k v) p = dictFind? l p := by
  rw [dictSet]
  by_cases hany : l.any (fun e => e.1 == k) = true
  · rw [if_pos hany]
    exact dictFind?_mapReplace l k v p h
  · rw [if_neg hany, dictFind?_append_single, if_neg (fun hk => h hk.symm)]
    cases dictFind? l p <;> rfl

theorem dictSet_of_find?_none (l : List (String × α)) (k : String) (v : α)
    (h : dictFind? l k = none) : dictSet l k v = l ++ [(k, v)] := by
  rw [dictSet, if_neg]
  rw [dictAny_eq_isSome, h]
  simp

theorem keys_dictSet_of_find?_some (l : List (String × α)) (k : String) (v : α)
    (h : (dictFind? l k).isSome) :
    (dictSet l k v).map Prod.fst = l.map Prod.fst := by
  rw [dictSet, if_pos (by rw [dictAny_eq_isSome, h]), List.map_map]
  apply List.map_congr_left
  intro e _
  by_cases he : e.1 = k
  · simp [he]
  · simp [he]

theorem mem_keys_of_mem {l : List (String × α)} {p : String} {s : α}
    (h : (p, s) ∈ l) : p ∈ l.map Prod.fst :=
  List.mem_map.mpr ⟨(p, s), h, rfl⟩

theorem mem_iff_dictFind? {l : List (String × α)}
    (hn : (l.map Prod.fst).Nodup) (p : String) (s : α) :
    (p, s) ∈ l ↔ dictFind? l p = some s := by
  induction l with
  | nil => simp [dictFind?]
  | cons e l ih =>
    rw [List.map_cons, List.nodup_cons] at hn
    rw [dictFind?_cons, List.mem_cons]
    by_cases hp : e.1 = p
    · subst hp
      rw [if_pos rfl]
      constructor
      · rintro (h | h)
        · have hs : s = e.2 := congrArg Prod.snd h
          rw [hs]
        · exact absurd (mem_keys_of_mem h) hn.1
      · intro h
        have hs : e.2 = s := Option.some.inj h
        left
        rw [← hs]
    · rw [if_neg hp, ih hn.2]
      have : ¬ ((p, s) = e) := by
        intro h
        exact hp (by rw [← h])
      simp [this]

/-! Properties of the deduplicating merge -/

theorem dedupStep_of_none {acc : List (String × ℚ)} {x : String × ℚ}
    (h : dictFind? acc x.1 = none) : dedupStep acc x = acc ++ [x] := by
  rw [dedupStep, h]

theorem dedupStep_of_some {acc : List (String × ℚ)} {x : String × ℚ} {s : ℚ}
    (h : dictFind? acc x.1 = some s) :
    dedupStep acc x = if s < x.2 then dictSet acc x.1 x.2 else acc := by
  rw [dedupStep, h]

theorem dictFind?_dedupStep_self (acc : List (String × ℚ)) (x : String × ℚ) :
    dictFind? (dedupStep acc x) x.1 =
      some ((dictFind? acc x.1).elim x.2 (fun s => max s x.2)) := by
  cases hf : dictFind? acc x.1 with
  | none =>
    rw [dedupStep_of_none hf, dictFind?_append_single, hf]
    simp
  | some s =>
    rw [dedupStep_of_some hf]
    by_cases hlt : s < x.2
    · rw [if_pos hlt, dictFind?_dictSet_self]
      simp [max_eq_right (le_of_lt hlt)]
    · rw [if_neg hlt, hf]
      simp [max_eq_left (le_of_not_lt hlt)]

theorem dictFind?_dedupStep_ne (acc : List (String × ℚ)) (x : String × ℚ)
    (p : String) (h : p ≠ x.1) :
    dictFind? (dedupStep acc x) p = dictFind? acc p := by
  cases hf : dictFind? acc x.1 with
  | none =>
    rw [dedupStep_of_none hf, dictFind?_append_single, if_neg (fun hk => h hk.symm)]
    cases dictFind? acc p <;> rfl
  | some s =>
    rw [dedupStep_of_some hf]
    by_cases hlt : s < x.2
    · rw [if_pos hlt]
      exact dictFind?_dictSet_ne acc x.1 x.2 p h
    · rw [if_neg hlt]

theorem dictFind?_foldl_dedupStep (p : String) :
    ∀ (l : List (String × ℚ)) (acc : List (String × ℚ)),
      dictFind? (l.foldl dedupStep acc) p =
        optJoinMax (dictFind? acc p) (bestScore? p l) := by
  intro l
  induction l with
  | nil =>
    intro acc
    rw [List.foldl_nil, bestScore?]
    cases dictFind? acc p <;> rfl
  | cons x l ih =>
    intro acc
    rw [List.foldl_cons, ih, bestScore?]
    by_cases hp : x.1 = p
    · rw [← hp, dictFind?_dedupStep_self]
      rw [hp, if_pos rfl]
      rw [← hp]
      cases hf : dictFind? acc x.1 <;> cases hb : bestScore? x.1 l <;>
        simp [optJoinMax, Option.elim, max_assoc]
    · rw [dictFind?_dedupStep_ne acc x p (fun hh => hp hh.symm), if_neg hp]

theorem keys_dedupStep (acc : List (String × ℚ)) (x : String × ℚ) :
    (dedupStep acc x).map Prod.fst =
      if (dictFind? acc x.1).isSome then acc.map Prod.fst
      else acc.map Prod.fst ++ [x.1] := by
  cases hf : dictFind? acc x.1 with
  | none => rw [dedupStep_of_none hf]; simp
  | some s =>
    rw [dedupStep_of_some hf]
    by_cases hlt : s < x.2
    · rw [if_pos hlt]
      simp [keys_dictSet_of_find?_some acc x.1 x.2 (by rw [hf]; rfl)]
    · rw [if_neg hlt]
      simp

theorem keys_nodup_foldl_dedupStep :
    ∀ (l : List (String × ℚ)) (acc : List (String × ℚ)),
      (acc.map Prod.fst).Nodup → ((l.foldl dedupStep acc).map Prod.fst).Nodup := by
  intro l
  induction l with
  | nil => intro acc h; exact h
  | cons x l ih =>
    intro acc h
    rw [List.foldl_cons]
    apply ih
    rw [keys_dedupStep]
    cases hf : dictFind? acc x.1 with
    | none =>
      simp only [Option.isSome_none, Bool.false_eq_true, if_false]
      rw [List.nodup_append]
      refine ⟨h, List.nodup_singleton x.1, ?_⟩
      intro a ha hb
      rw [List.mem_singleton] at hb
      subst hb
      exact ((dictFind?_eq_none_iff acc x.1).mp hf) ha
    | some s => simpa using h

theorem dedupMax_keys_nodup (l : List (String × ℚ)) :
    ((dedupMax l).map Prod.fst).Nodup :=
  keys_nodup_foldl_dedupStep l [] (by simp)

theorem dictFind?_dedupMax (l : List (String × ℚ)) (p : String) :
    dictFind? (dedupMax l) p = bestScore? p l := by
  rw [dedupMax, dictFind?_foldl_dedupStep]
  rw [show dictFind? ([] : List (String × ℚ)) p = none from rfl]
  cases bestScore? p l <;> rfl

theorem mem_dedupMax (l : List (String × ℚ)) (p : String) (s : ℚ) :
    (p, s) ∈ dedupMax l ↔ bestScore? p l = some s := by
  rw [mem_iff_dictFind? (dedupMax_keys_nodup l), dictFind?_dedupMax]

theorem mem_mergeStep (l : List (String × ℚ)) (p : String) (s : ℚ) :
    (p, s) ∈ mergeStep l ↔ bestScore? p l = some s := by
  rw [mergeStep, mem_sortDesc, mem_dedupMax]

theorem mergeStep_keys_nodup (l : List (String × ℚ)) :
    ((mergeStep l).map Prod.fst).Nodup := by
  have hperm : ((mergeStep l).map Prod.fst).Perm ((dedupMax l).map Prod.fst) :=
    (sortDesc_perm (dedupMax l)).map Prod.fst
  exact hperm.nodup_iff.mpr (dedupMax_keys_nodup l)

theorem mergeStep_pairwise (l : List (String × ℚ)) :
    (mergeStep l).Pairwise scoreLE :=
  sortDesc_pairwise (dedupMax l)

/-! Unfolding lemmas for the fan-out and the worker loops -/

theorem range_map_succ_shift {α : Type} (g : Nat → α) (m : Nat) :
    (List.range (m + 1)).map g = g 0 :: (List.range m).map (fun j => g (j + 1)) := by
  rw [List.range_succ_eq_map, List.map_cons, List.map_map]
  rfl

theorem multiIndexFold {F : Type} (storage : String → Option (IndexData F))
    (avail : List (Extractor F)) (ops : PyOps F) (fsExists : String → Bool)
    (query : F) (thr : ℚ) (maxr : Nat) :
    ∀ (paths : List String) (proc : BatchSearchProcessor F)
      (acc : List (String × List (String × ℚ))),
      paths.Nodup → (∀ p ∈ paths, dictFind? acc p = none) →
      (paths.foldl
        (fun (acc2 : BatchSearchProcessor F × List (String × List (String × ℚ))) p =>
          let r := search_in_index storage avail ops fsExists acc2.1 query p thr maxr
          (r.1, dictSet acc2.2 p r.2.1)) (proc, acc)).1 =
        (perIndexOutputs storage avail ops fsExists query thr maxr proc paths).1 ∧
      (paths.foldl
        (fun (acc2 : BatchSearchProcessor F × List (String × List (String × ℚ))) p =>
          let r := search_in_index storage avail ops fsExists acc2.1 query p thr maxr
          (r.1, dictSet acc2.2 p r.2.1)) (proc, acc)).2.map (fun e => e.2) =
        acc.map (fun e => e.2) ++
          (perIndexOutputs storage avail ops fsExists query thr maxr proc paths).2 := by
  intro paths
  induction paths with
  | nil =>
    intro proc acc _ _
    constructor
    · rfl
    · simp [perIndexOutputs]
  | cons p ps ih =>
    intro proc acc hnd hacc
    rw [List.nodup_cons] at hnd
    have hfp : dictFind? acc p = none := hacc p (List.mem_cons_self p ps)
    have h1 : List.foldl
        (fun (acc2 : BatchSearchProcessor F × List (String × List (String × ℚ))) p =>
          let r := search_in_index storage avail ops fsExists acc2.1 query p thr maxr
          (r.1, dictSet acc2.2 p r.2.1)) (proc, acc) (p :: ps) =
        List.foldl
        (fun (acc2 : BatchSearchProcessor F × List (String × List (String × ℚ))) p =>
          let r := search_in_index storage avail ops fsExists acc2.1 query p thr maxr
          (r.1, dictSet acc2.2 p r.2.1))
        ((search_in_index storage avail ops fsExists proc query p thr maxr).1,
         dictSet acc p (search_in_index storage avail ops fsExists proc query p thr maxr).2.1)
        ps := rfl
    rw [h1, dictSet_of_find?_none acc p _ hfp]
    have hacc2 : ∀ q ∈ ps,
        dictFind? (acc ++ [(p, (search_in_index storage avail ops fsExists proc query p thr maxr).2.1)]) q = none := by
      intro q hq
      rw [dictFind?_append_single, hacc q (List.mem_cons_of_mem p hq),
        if_neg (fun hpq : p = q => hnd.1 (hpq ▸ hq))]
      rfl
    have hih := ih (search_in_index storage avail ops fsExists proc query p thr maxr).1
      (acc ++ [(p, (search_in_index storage avail ops fsExists proc query p thr maxr).2.1)])
      hnd.2 hacc2
    simp only [perIndexOutputs]
    constructor
    · rw [hih.1]
    · rw [hih.2]
      simp

theorem searchWorkerLoop_run {F : Type} (ops : PyOps F) (extractor : Extractor F)
    (qf : F) (thr : ℚ) (n : Nat) (runningAt : Nat → Bool)
    (hr : ∀ j, runningAt j = true) :
    ∀ (files : List String) (i : Nat),
      searchWorkerLoop ops extractor qf thr n runningAt i files =
        ((List.range files.length).map (fun j => SearchEvent.progress (100 * (i + j) / n)),
         workerKept ops extractor qf thr files) := by
  intro files
  induction files with
  | nil =>
    intro i
    simp [searchWorkerLoop, workerKept]
  | cons f rest ih =>
    intro i
    have harg : (fun j => SearchEvent.progress (100 * ((i + 1) + j) / n)) =
        (fun j => SearchEvent.progress (100 * (i + (j + 1)) / n)) := by
      funext j
      have : (i + 1) + j = i + (j + 1) := by omega
      rw [this]
    rw [searchWorkerLoop, hr i, if_pos rfl, ih (i + 1)]
    simp only [workerKept, List.filterMap_cons]
    rw [List.length_cons, range_map_succ_shift, ← harg]
    cases keptEntry ops extractor qf thr f <;> rfl

theorem featureIndexerLoop_run {F : Type} (extractor : Extractor F) (n : Nat)
    (runningAt : Nat → Bool) (hr : ∀ j, runningAt j = true) :
    ∀ (files : List String) (i : Nat) (acc : List (String × F)),
      featureIndexerLoop extractor n runningAt i acc files =
        ((List.range files.length).map
           (fun j => IndexEvent.progress (100 * (i + j + 1) / n)),
         some (files.foldl (indexAccStep extractor) acc), files) := by
  intro files
  induction files with
  | nil =>
    intro i acc
    simp [featureIndexerLoop]
  | cons f rest ih =>
    intro i acc
    rw [featureIndexerLoop, hr i, if_pos rfl, ih (i + 1)]
    rw [List.length_cons, range_map_succ_shift, List.foldl_cons]
    have harg : (fun j => IndexEvent.progress (100 * ((i + 1) + j + 1) / n)) =
        (fun j => IndexEvent.progress (100 * (i + (j + 1) + 1) / n)) := by
      funext j
      have : (i + 1) + j + 1 = i + (j + 1) + 1 := by omega
      rw [this]
    rw [← harg]

theorem featureIndexerLoop_cancel {F : Type} (extractor : Extractor F) (n k : Nat) :
    ∀ (files : List String) (i : Nat) (acc : List (String × F)),
      i ≤ k → k < i + files.length →
      featureIndexerLoop extractor n (fun j => decide (j < k)) i acc files =
        ((List.range (k - i)).map
           (fun j => IndexEvent.progress (100 * (i + j + 1) / n))
           ++ [IndexEvent.failed cancelMsg],
         none, files.take (k - i)) := by
  intro files
  induction files with
  | nil =>
    intro i acc hik hki
    rw [List.length_nil] at hki
    exact absurd hki (by omega)
  | cons f rest ih =>
    intro i acc hik hki
    rw [List.length_cons] at hki
    rcases Nat.lt_or_ge i k with hlt | hge
    · rw [featureIndexerLoop, show (decide (i < k)) = true by simp [hlt], if_pos rfl,
        ih (i + 1) (indexAccStep extractor acc f) (by omega) (by omega)]
      have hk : k - i = (k - (i + 1)) + 1 := by omega
      rw [hk, range_map_succ_shift, List.take_succ_cons]
      have harg : (fun j => IndexEvent.progress (100 * ((i + 1) + j + 1) / n)) =
          (fun j => IndexEvent.progress (100 * (i + (j + 1) + 1) / n)) := by
        funext j
        have : (i + 1) + j + 1 = i + (j + 1) + 1 := by omega
        rw [this]
      rw [← harg]
      rfl
    · have hik2 : i = k := le_antisymm hik hge
      rw [featureIndexerLoop, show (decide (i < k)) = false by simp [hik2]]
      have hk0 : k - i = 0 := by omega
      rw [hk0]
      simp

theorem scanEntries_keys_subset {F : Type} (ops : PyOps F) (extractor : Extractor F)
    (fsExists : String → Bool) (q : F) (thr : ℚ) :
    ∀ (entries : List (String × F)),
      (∀ p s, (p, s) ∈ (scanEntries ops extractor fsExists q thr entries).1 →
        p ∈ entries.map Prod.fst) ∧
      (∀ p, p ∈ (scanEntries ops extractor fsExists q thr entries).2 →
        p ∈ entries.map Prod.fst) := by
  intro entries
  induction entries with
  | nil =>
    constructor
    · intro p s hp
      simp [scanEntries] at hp
    · intro p hp
      simp [scanEntries] at hp
  | cons e rest ih =>
    obtain ⟨p', fv'⟩ := e
    constructor
    · intro p s hp
      simp only [scanEntries] at hp
      rw [List.map_cons, List.mem_cons]
      split at hp
      · split at hp
        · exact Or.inr (ih.1 p s hp)
        · split at hp
          · exact Or.inr (ih.1 p s hp)
          · split at hp
            · rcases List.mem_cons.mp hp with h | h
              · exact Or.inl (congrArg Prod.fst h)
              · exact Or.inr (ih.1 p s h)
            · exact Or.inr (ih.1 p s hp)
      · exact Or.inr (ih.1 p s hp)
    · intro p hp
      simp only [scanEntries] at hp
      rw [List.map_cons, List.mem_cons]
      split at hp
      · split at hp
        · exact Or.inr (ih.2 p hp)
        · split at hp
          · rcases List.mem_cons.mp hp with h | h
            · exact Or.inl h
            · exact Or.inr (ih.2 p h)
          · rcases List.mem_cons.mp hp with h | h
            · exact Or.inl h
            · exact Or.inr (ih.2 p h)
      · exact Or.inr (ih.2 p hp)

theorem scanEntries_cons_mismatch {F : Type} (ops : PyOps F)
    (extractor : Extractor F) (fsExists : String → Bool) (q : F) (thr : ℚ)
    {p' : String} {fv' : F} (rest : List (String × F))
    (hfs : fsExists p' = true) {s1 s2 : List Nat}
    (hq : ops.shape q = some s1) (hfv : ops.shape (ops.flat fv') = some s2)
    (hne : s1 ≠ s2) :
    scanEntries ops extractor fsExists q thr ((p', fv') :: rest) =
      scanEntries ops extractor fsExists q thr rest := by
  simp only [scanEntries, hfs, hq, hfv, if_true]
  simp [hne]

/-! Identification of the literal score constants with their
decimal values, and unfolding lemmas for `search_in_index` -/

theorem half_eq : (1 / 2 : ℚ) = half := by
  rw [half, Rat.mk'_eq_divInt]
  norm_num [Rat.divInt_eq_div]

theorem twoFifths_eq : (2 / 5 : ℚ) = twoFifths := by
  rw [twoFifths, Rat.mk'_eq_divInt]
  norm_num [Rat.divInt_eq_div]

theorem threeFifths_eq : (3 / 5 : ℚ) = threeFifths := by
  rw [threeFifths, Rat.mk'_eq_divInt]
  norm_num [Rat.divInt_eq_div]

theorem threeTenths_eq : (3 / 10 : ℚ) = threeTenths := by
  rw [threeTenths, Rat.mk'_eq_divInt]
  norm_num [Rat.divInt_eq_div]

theorem sevenTenths_eq : (7 / 10 : ℚ) = sevenTenths := by
  rw [sevenTenths, Rat.mk'_eq_divInt]
  norm_num [Rat.divInt_eq_div]

theorem nineTenths_eq : (9 / 10 : ℚ) = nineTenths := by
  rw [nineTenths, Rat.mk'_eq_divInt]
  norm_num [Rat.divInt_eq_div]

theorem search_in_index_cached {F : Type} (storage : String → Option (IndexData F))
    (avail : List (Extractor F)) (ops : PyOps F) (fsExists : String → Bool)
    (proc : BatchSearchProcessor F) (query : F) (key : String) (thr : ℚ)
    (maxr : Nat) {data : IndexData F}
    (h1 : dictFind? proc.indexes key = some data) :
    search_in_index storage avail ops fsExists proc query key thr maxr =
      (proc, search_in_index_core avail ops fsExists query data thr maxr, 0) := by
  rw [search_in_index, h1]
  rfl

theorem search_in_index_miss_fail {F : Type} (storage : String → Option (IndexData F))
    (avail : List (Extractor F)) (ops : PyOps F) (fsExists : String → Bool)
    (proc : BatchSearchProcessor F) (query : F) (key : String) (thr : ℚ)
    (maxr : Nat) (h1 : dictFind? proc.indexes key = none)
    (hs : storage key = none) :
    search_in_index storage avail ops fsExists proc query key thr maxr =
      (proc, [], 1) := by
  rw [search_in_index, h1, load_index, hs]
  rfl

theorem search_in_index_miss_load {F : Type} (storage : String → Option (IndexData F))
    (avail : List (Extractor F)) (ops : PyOps F) (fsExists : String → Bool)
    (proc : BatchSearchProcessor F) (query : F) (key : String) (thr : ℚ)
    (maxr : Nat) {d : IndexData F} (h1 : dictFind? proc.indexes key = none)
    (hs : storage key = some d) :
    search_in_index storage avail ops fsExists proc query key thr maxr =
      (⟨dictSet proc.indexes key d⟩,
       search_in_index_core avail ops fsExists query d thr maxr, 1) := by
  rw [search_in_index, h1, load_index, hs]
  have hfind : dictFind?
      (BatchSearchProcessor.indexes ⟨dictSet proc.indexes key d⟩) key = some d :=
    dictFind?_dictSet_self proc.indexes key d
  rw [show (BatchSearchProcessor.mk (dictSet proc.indexes key d) : BatchSearchProcessor F).indexes
      = dictSet proc.indexes key d from rfl] at hfind
  simp only [Option.isSome_none, Bool.false_eq_true, if_false]
  rw [hfind]

theorem search_in_index_core_found {F : Type}
    (avail : List (Extractor F)) (ops : PyOps F) (fsExists : String → Bool)
    (query : F) (data : IndexData F) (thr : ℚ) (maxr : Nat)
    {extractor : Extractor F}
    (h2 : avail.find? (fun ex => ex.name == data.extractor_name) = some extractor) :
    search_in_index_core avail ops fsExists query data thr maxr =
      (if 0 < maxr then
        (sortDesc (scanEntries ops extractor fsExists (ops.flat query) thr data.features).1).take maxr
      else
        sortDesc (scanEntries ops extractor fsExists (ops.flat query) thr data.features).1) := by
  rw [search_in_index_core, h2]

theorem search_in_index_core_not_found {F : Type}
    (avail : List (Extractor F)) (ops : PyOps F) (fsExists : String → Bool)
    (query : F) (data : IndexData F) (thr : ℚ) (maxr : Nat)
    (h2 : avail.find? (fun ex => ex.name == data.extractor_name) = none) :
    search_in_index_core avail ops fsExists query data thr maxr = [] := by
  rw [search_in_index_core, h2]

theorem featureIndexerRun_complete {F : Type} (extractor : Extractor F)
    (op : String) (files : List String) (now : ℚ) (n : Nat)
    (hn : files.length = n) (hn0 : 0 < n) :
    featureIndexerRun extractor op files now (fun _ => true) =
      ((List.range n).map (fun j => IndexEvent.progress (100 * (j + 1) / n)) ++
         [IndexEvent.completed op],
       some ⟨buildFeaturesDict extractor files, extractor.name, now⟩, files) := by
  rw [featureIndexerRun, if_neg (by omega)]
  rw [featureIndexerLoop_run extractor files.length (fun _ => true) (fun _ => rfl) files 0 [],
    hn]
  have hz : (fun j => IndexEvent.progress (100 * (0 + j + 1) / n)) =
      (fun j => IndexEvent.progress (100 * (j + 1) / n)) := by
    funext j
    rw [Nat.zero_add]
  rw [hz]
  rfl

theorem progressValues_map_append_completed (v : Nat → Nat) (m : Nat) (op : String) :
    progressValues ((List.range m).map (fun j => IndexEvent.progress (v j)) ++
        [IndexEvent.completed op]) =
      (List.range m).map v := by
  rw [progressValues, List.filterMap_append, List.filterMap_map]
  rw [show List.filterMap
      ((fun e => match e with
        | IndexEvent.progress v => some v
        | _ => none) ∘ (fun j => IndexEvent.progress (v j))) (List.range m) =
      List.filterMap (some ∘ v) (List.range m) from rfl]
  rw [List.filterMap_eq_map]
  simp

theorem searchWorkerRun_complete {F : Type} (ops : PyOps F)
    (extractor : Extractor F) (thr : ℚ) (maxr : Nat) (qp : String) (qf : F)
    (files : List String)
    (hq : extractor.extract_features qp = some qf) (hl : 0 < ops.flen qf)
    (hn0 : 0 < files.length) :
    searchWorkerRun ops extractor thr maxr qp files (fun _ => true) =
      (List.range files.length).map
          (fun j => SearchEvent.progress (100 * j / files.length)) ++
        [SearchEvent.resultReady
           (if 0 < maxr then
             (sortDesc (workerKept ops extractor qf thr files)).take maxr
           else sortDesc (workerKept ops extractor qf thr files)),
         SearchEvent.progress 100] := by
  simp only [searchWorkerRun, hq]
  rw [if_neg (fun h0 : ops.flen qf = 0 => by omega), if_neg (by omega)]
  rw [searchWorkerLoop_run ops extractor qf thr files.length (fun _ => true)
    (fun _ => rfl) files 0]
  have hz : (fun j => SearchEvent.progress (100 * (0 + j) / files.length)) =
      (fun j => SearchEvent.progress (100 * j / files.length)) := by
    funext j
    rw [Nat.zero_add]
  rw [hz]

theorem scanEntries_mismatch_not_mem {F : Type} (ops : PyOps F)
    (extractor : Extractor F) (fsExists : String → Bool) (q : F) (thr : ℚ) :
    ∀ (entries : List (String × F)) (p : String) (fv : F) {s1 s2 : List Nat},
      (entries.map Prod.fst).Nodup → (p, fv) ∈ entries → fsExists p = true →
      ops.shape q = some s1 → ops.shape (ops.flat fv) = some s2 → s1 ≠ s2 →
      (∀ s, (p, s) ∉ (scanEntries ops extractor fsExists q thr entries).1) ∧
      p ∉ (scanEntries ops extractor fsExists q thr entries).2 := by
  intro entries
  induction entries with
  | nil =>
    intro p fv s1 s2 _ hmem
    exact absurd hmem (List.not_mem_nil _)
  | cons e rest ih =>
    obtain ⟨p', fv'⟩ := e
    intro p fv s1 s2 hnd hmem hfs hq hfv hne
    rw [List.map_cons, List.nodup_cons] at hnd
    rcases List.mem_cons.mp hmem with heq | hrest
    · have hp : p' = p := (congrArg Prod.fst heq).symm
      have hv : fv' = fv := (congrArg Prod.snd heq).symm
      subst hp
      subst hv
      rw [scanEntries_cons_mismatch ops extractor fsExists q thr rest hfs hq hfv hne]
      have hnotk : p' ∉ rest.map Prod.fst := hnd.1
      constructor
      · intro s hs
        exact hnotk ((scanEntries_keys_subset ops extractor fsExists q thr rest).1 p' s hs)
      · intro hs
        exact hnotk ((scanEntries_keys_subset ops extractor fsExists q thr rest).2 p' hs)
    · have hpne : p ≠ p' := by
        intro hpp
        exact hnd.1 (hpp ▸ mem_keys_of_mem hrest)
      have ihr := ih p fv hnd.2 hrest hfs hq hfv hne
      constructor
      · intro s hs
        simp only [scanEntries] at hs
        split at hs
        · split at hs
          · exact ihr.1 s hs
          · split at hs
            · exact ihr.1 s hs
            · split at hs
              · rcases List.mem_cons.mp hs with h | h
                · exact hpne (congrArg Prod.fst h)
                · exact ihr.1 s h
              · exact ihr.1 s hs
        · exact ihr.1 s hs
      · intro hs
        simp only [scanEntries] at hs
        split at hs
        · split at hs
          · exact ihr.2 hs
          · split at hs
            · rcases List.mem_cons.mp hs with h | h
              · exact hpne h
              · exact ihr.2 h
            · rcases List.mem_cons.mp hs with h | h
              · exact hpne h
              · exact ihr.2 h
        · exact ihr.2 hs

/-! Claim theorems -/

/-- C1, counterexample.  The claim asserts that multi-index search runs
every per-index search with an unbounded limit and applies the caller's
limit only after the merge (`searchManySpecClaimed`).  The code passes
`max_results` to each per-index search (batch_search.py line 152), and
the two pipelines genuinely differ: with limit 1, index i1 holding B at
2/5 and index i2 holding T and B at 1/2 each, the code returns T (B's
tied occurrence was truncated away inside i2), while the claimed
pipeline returns B (whose first occurrence, from i1, wins the tie in
first-seen order). -/
theorem C1_counterexample :
    (search_in_multiple_indexes storageC1 availQ opsQ fsAll ⟨[]⟩ (0 : ℚ)
        ["i1", "i2"] 0 1).2 ≠
      searchManySpecClaimed storageC1 availQ opsQ fsAll ⟨[]⟩ (0 : ℚ)
        ["i1", "i2"] 0 1 ∧
    (search_in_multiple_indexes storageC1 availQ opsQ fsAll ⟨[]⟩ (0 : ℚ)
        ["i1", "i2"] 0 1).2 = [("T", 1 / 2)] ∧
    searchManySpecClaimed storageC1 availQ opsQ fsAll ⟨[]⟩ (0 : ℚ)
        ["i1", "i2"] 0 1 = [("B", 1 / 2)] := by
  refine ⟨by decide, ?_, ?_⟩
  · rw [half_eq]
    decide
  · rw [half_eq]
    decide

/-- C2, code behaviour at the failing input.  A linear scan over two
files whose cancellation flag is cleared before the second iteration
emits the cancellation signal and then — because the `break` on
search_worker.py line 95 does not skip lines 114-123 — still emits a
partial result list and a progress value of 100, contradicting the
claim that nothing follows the single cancellation notice. -/
theorem C2_cancelled_run_still_emits_results :
    searchWorkerRun opsQ exQ 0 0 "q" ["a", "b"] (fun i => decide (i < 1)) =
      [SearchEvent.progress 0, SearchEvent.cancelled,
       SearchEvent.resultReady [("a", 1)], SearchEvent.progress 100] := by
  decide

/-- C9: a linear scan over a folder with zero image files terminates
normally, emitting an empty result list and then progress 100
(search_worker.py lines 83-86), while an indexer run over the same
empty enumeration fails with the no-images message and persists
nothing (feature_indexer.py lines 77-79). -/
theorem C9_empty_folder {F : Type} (ops : PyOps F) (extractor : Extractor F)
    (thr : ℚ) (maxr : Nat) (qp : String) (qf : F) (runningAt : Nat → Bool)
    (extractor2 : Extractor F) (op : String) (now : ℚ)
    (hq : extractor.extract_features qp = some qf)
    (hl : 0 < ops.flen qf) :
    searchWorkerRun ops extractor thr maxr qp [] runningAt =
      [SearchEvent.resultReady [], SearchEvent.progress 100] ∧
    (featureIndexerRun extractor2 op [] now runningAt).1 =
      [IndexEvent.failed noImagesMsg] ∧
    (featureIndexerRun extractor2 op [] now runningAt).2.1 = none := by
  refine ⟨?_, rfl, rfl⟩
  simp only [searchWorkerRun, hq]
  rw [if_neg (fun h0 : ops.flen qf = 0 => by omega), if_pos List.length_nil]

/-- C9, witness. -/
theorem C9_empty_folder_witness :
    searchWorkerRun opsQ exQ 0 0 "q" [] (fun _ => true) =
      [SearchEvent.resultReady [], SearchEvent.progress 100] ∧
    (featureIndexerRun exQ "op" [] 0 (fun _ => true)).1 =
      [IndexEvent.failed noImagesMsg] ∧
    (featureIndexerRun exQ "op" [] 0 (fun _ => true)).2.1 = none :=
  C9_empty_folder opsQ exQ 0 0 "q" 1 (fun _ => true) exQ "op" 0 (by decide) (by decide)

/-- C4, counterexample.  The "update" mode (index_dialog.py lines
250-254 followed by a plain `IndexWorker` run) re-extracts the file
"a" even though it is already a key of the existing record's entries,
and the persisted record maps "a" to the freshly extracted value 2,
not to the previously stored value 1: the claim that update mode skips
already-indexed files and leaves their stored values untouched fails. -/
theorem C4_counterexample :
    (updateModeRun ⟨"p.pkl", exC4⟩ ["a"] 0 (fun _ => true)).2.2 = ["a"] ∧
    "a" ∈ existingC4.features.map Prod.fst ∧
    dictFind? existingC4.features "a" = some 1 ∧
    (updateModeRun ⟨"p.pkl", exC4⟩ ["a"] 0 (fun _ => true)).2.1 =
      some ⟨[("a", 2)], "E", 0⟩ := by
  decide

/-- C5, counterexample.  For a run over three files the second emitted
Progress Signal is `int(100 * 2 / 3) = 66` (feature_indexer.py line
106), while the claim's formula `round(100 * 2 / 3)` equals 67 (the
value 200/3 is not a half-integer, so every tie-breaking convention of
rounding agrees). -/
theorem C5_counterexample :
    (featureIndexerRun exQ "op" ["a", "b", "c"] 0 (fun _ => true)).1 =
      [IndexEvent.progress 33, IndexEvent.progress 66, IndexEvent.progress 100,
       IndexEvent.completed "op"] ∧
    (round ((100 * 2 : ℚ) / 3) : ℤ) = 67 := by
  refine ⟨by decide, ?_⟩
  rw [round_eq, Int.floor_eq_iff]
  constructor
  · norm_num
  · norm_num

/-- C8, counterexample.  Each indexed search constructs a fresh
`BatchSearchProcessor` (main_window.py line 45), so nothing is cached
across searches: after a first successful load of key k (read count 1,
result 9/10), a second search against the same key performs another
storage read (count 1 again, not 0) and returns what storage now holds
(2/5), not the previously loaded record — the claimed process-wide,
process-lifetime cache does not exist. -/
theorem C8_counterexample :
    (indexedSearchWorkerRun storageOld availQ opsQ fsAll exQ "q" "k" 0 0).2 = 1 ∧
    (indexedSearchWorkerRun storageNew availQ opsQ fsAll exQ "q" "k" 0 0).2 = 1 ∧
    (indexedSearchWorkerRun storageOld availQ opsQ fsAll exQ "q" "k" 0 0).1 =
      [ISEvent.progress 10, ISEvent.progress 30, ISEvent.progress 90,
       ISEvent.resultReady [("P", 9 / 10)], ISEvent.progress 100] ∧
    (indexedSearchWorkerRun storageNew availQ opsQ fsAll exQ "q" "k" 0 0).1 =
      [ISEvent.progress 10, ISEvent.progress 30, ISEvent.progress 90,
       ISEvent.resultReady [("P", 2 / 5)], ISEvent.progress 100] := by
  refine ⟨by decide, by decide, ?_, ?_⟩
  · rw [nineTenths_eq]
    decide
  · rw [twoFifths_eq]
    decide

/-- C3: stopping an indexer run (flag cleared before iteration k of n)
yields, at the worker level, exactly the progress signals already
emitted for the first k files followed by one distinct `Cancelled`
event (never a `Failed` one), persists no index record, and emits no
progress value above the one emitted for file k. -/
theorem C3_indexer_cancellation {F : Type} (extractor : Extractor F)
    (op : String) (files : List String) (now : ℚ) (n k : Nat)
    (hn : files.length = n) (hn0 : 0 < n) (hk : k < n) :
    indexWorkerEvents true
        (featureIndexerRun extractor op files now (fun i => decide (i < k))).1 =
      (List.range k).map (fun j => WorkerEvent.progress (100 * (j + 1) / n)) ++
        [WorkerEvent.cancelled] ∧
    (featureIndexerRun extractor op files now (fun i => decide (i < k))).2.1 = none ∧
    (∀ v, IndexEvent.progress v ∈
        (featureIndexerRun extractor op files now (fun i => decide (i < k))).1 →
      v ≤ 100 * k / n) := by
  have hrun : featureIndexerRun extractor op files now (fun i => decide (i < k)) =
      ((List.range k).map (fun j => IndexEvent.progress (100 * (j + 1) / n)) ++
        [IndexEvent.failed cancelMsg], none, files.take k) := by
    rw [featureIndexerRun, if_neg (by omega)]
    rw [featureIndexerLoop_cancel extractor files.length k files 0 []
      (Nat.zero_le k) (by omega), hn]
    rw [show k - 0 = k from rfl]
    have hz : (fun j => IndexEvent.progress (100 * (0 + j + 1) / n)) =
        (fun j => IndexEvent.progress (100 * (j + 1) / n)) := by
      funext j
      rw [Nat.zero_add]
    rw [hz]
  refine ⟨?_, ?_, ?_⟩
  · rw [hrun]
    simp only [indexWorkerEvents, List.map_append, List.map_map]
    rfl
  · rw [hrun]
  · intro v hv
    rw [hrun] at hv
    rcases List.mem_append.mp hv with h | h
    · rcases List.mem_map.mp h with ⟨j, hj, hje⟩
      have hjk : j + 1 ≤ k := List.mem_range.mp hj
      have hvj : v = 100 * (j + 1) / n := by
        have := congrArg (fun e => match e with
          | IndexEvent.progress v => v
          | _ => 0) hje
        exact this.symm
      rw [hvj]
      exact Nat.div_le_div_right (Nat.mul_le_mul_left 100 hjk)
    · rcases List.mem_singleton.mp h with h
      cases h

/-- C3, witness at the spec's own numbers: 10 files, stopped after
file 3. -/
theorem C3_indexer_cancellation_witness :
    indexWorkerEvents true
        (featureIndexerRun exQ "op"
          ["f1", "f2", "f3", "f4", "f5", "f6", "f7", "f8", "f9", "f10"] 0
          (fun i => decide (i < 3))).1 =
      (List.range 3).map (fun j => WorkerEvent.progress (100 * (j + 1) / 10)) ++
        [WorkerEvent.cancelled] ∧
    (featureIndexerRun exQ "op"
        ["f1", "f2", "f3", "f4", "f5", "f6", "f7", "f8", "f9", "f10"] 0
        (fun i => decide (i < 3))).2.1 = none ∧
    (∀ v, IndexEvent.progress v ∈
        (featureIndexerRun exQ "op"
          ["f1", "f2", "f3", "f4", "f5", "f6", "f7", "f8", "f9", "f10"] 0
          (fun i => decide (i < 3))).1 →
      v ≤ 100 * 3 / 10) :=
  C3_indexer_cancellation exQ "op"
    ["f1", "f2", "f3", "f4", "f5", "f6", "f7", "f8", "f9", "f10"] 0 10 3
    (by decide) (by decide) (by decide)

/-- C1, amended.  Multi-index search applies the caller's limit both
per-index and after the merge: each per-index Single-Index Search runs
with the caller's `max_results` (batch_search.py line 152), and for
distinct storage keys `search_many` equals the merged, deduplicated,
descending-sorted sequence of those truncated per-index outputs,
truncated again to the limit when it is positive. -/
theorem C1_limit_applied_per_index {F : Type}
    (storage : String → Option (IndexData F)) (avail : List (Extractor F))
    (ops : PyOps F) (fsExists : String → Bool) (proc : BatchSearchProcessor F)
    (query : F) (index_paths : List String) (thr : ℚ) (max_results : Nat)
    (hnd : index_paths.Nodup) :
    (search_in_multiple_indexes storage avail ops fsExists proc query
        index_paths thr max_results).2 =
      (if 0 < max_results then
        (mergeStep (perIndexOutputs storage avail ops fsExists query thr
            max_results proc index_paths).2.flatten).take max_results
      else
        mergeStep (perIndexOutputs storage avail ops fsExists query thr
            max_results proc index_paths).2.flatten) := by
  have h := multiIndexFold storage avail ops fsExists query thr max_results
    index_paths proc [] hnd (fun p _ => rfl)
  simp only [search_in_multiple_indexes]
  rw [h.2]
  simp

/-- C1, witness for the amended statement. -/
theorem C1_limit_applied_per_index_witness :
    (search_in_multiple_indexes storageC6 availQ opsQ fsAll ⟨[]⟩ (0 : ℚ)
        ["k1", "k2"] half 1).2 =
      (if 0 < 1 then
        (mergeStep (perIndexOutputs storageC6 availQ opsQ fsAll (0 : ℚ) half 1
            ⟨[]⟩ ["k1", "k2"]).2.flatten).take 1
      else
        mergeStep (perIndexOutputs storageC6 availQ opsQ fsAll (0 : ℚ) half 1
            ⟨[]⟩ ["k1", "k2"]).2.flatten) :=
  C1_limit_applied_per_index storageC6 availQ opsQ fsAll ⟨[]⟩ (0 : ℚ)
    ["k1", "k2"] half 1 (by decide)

/-- C4, amended.  The "update" mode of indexing performs a full
rebuild: it takes only the extractor and the output path from the
selected existing index, re-extracts features for every enumerated
file (including files already present as keys of the existing record),
and overwrites the persisted record with the freshly built dict —
previously stored feature values are not preserved. -/
theorem C4_update_mode_full_rebuild {F : Type} (sel : ExistingIndex F)
    (files : List String) (now : ℚ) (n : Nat)
    (hn : files.length = n) (hn0 : 0 < n) :
    (updateModeRun sel files now (fun _ => true)).2.2 = files ∧
    (updateModeRun sel files now (fun _ => true)).2.1 =
      some ⟨buildFeaturesDict sel.extractor files, sel.extractor.name, now⟩ ∧
    (updateModeRun sel files now (fun _ => true)).1 =
      (List.range n).map (fun j => IndexEvent.progress (100 * (j + 1) / n)) ++
        [IndexEvent.completed sel.path] := by
  rw [updateModeRun, featureIndexerRun_complete sel.extractor sel.path files now n hn hn0]
  exact ⟨rfl, rfl, rfl⟩

/-- C4, witness for the amended statement. -/
theorem C4_update_mode_full_rebuild_witness :
    (updateModeRun ⟨"p.pkl", exC4⟩ ["a"] 0 (fun _ => true)).2.2 = ["a"] ∧
    (updateModeRun ⟨"p.pkl", exC4⟩ ["a"] 0 (fun _ => true)).2.1 =
      some ⟨buildFeaturesDict (ExistingIndex.extractor ⟨"p.pkl", exC4⟩) ["a"],
        (ExistingIndex.extractor ⟨"p.pkl", exC4⟩).name, 0⟩ ∧
    (updateModeRun ⟨"p.pkl", exC4⟩ ["a"] 0 (fun _ => true)).1 =
      (List.range 1).map (fun j => IndexEvent.progress (100 * (j + 1) / 1)) ++
        [IndexEvent.completed (ExistingIndex.path ⟨"p.pkl", exC4⟩)] :=
  C4_update_mode_full_rebuild ⟨"p.pkl", exC4⟩ ["a"] 0 1 (by decide) (by decide)

/-- C5, amended.  An uncancelled indexer run over n files emits exactly
one Progress Signal per file, the i-th (1-based) having the value
`int(100 * i / n)` — integer truncation, not rounding — followed by the
completion signal; the emitted progress values are monotonically
non-decreasing. -/
theorem C5_progress_truncation {F : Type} (extractor : Extractor F)
    (op : String) (files : List String) (now : ℚ) (n : Nat)
    (hn : files.length = n) (hn0 : 0 < n) :
    (featureIndexerRun extractor op files now (fun _ => true)).1 =
      (List.range n).map (fun j => IndexEvent.progress (100 * (j + 1) / n)) ++
        [IndexEvent.completed op] ∧
    (progressValues
        (featureIndexerRun extractor op files now (fun _ => true)).1).Pairwise
      (· ≤ ·) := by
  have hrun := featureIndexerRun_complete extractor op files now n hn hn0
  constructor
  · rw [hrun]
  · rw [hrun]
    rw [show ((List.range n).map (fun j => IndexEvent.progress (100 * (j + 1) / n)) ++
        [IndexEvent.completed op],
        some (⟨buildFeaturesDict extractor files, extractor.name, now⟩ : IndexData F),
        files).1 =
      (List.range n).map (fun j => IndexEvent.progress (100 * (j + 1) / n)) ++
        [IndexEvent.completed op] from rfl]
    rw [progressValues_map_append_completed (fun j => 100 * (j + 1) / n) n op]
    exact (List.pairwise_lt_range n).map _
      (fun a b hab =>
        Nat.div_le_div_right (Nat.mul_le_mul_left 100 (by omega)))

/-- C5, witness for the amended statement. -/
theorem C5_progress_truncation_witness :
    (featureIndexerRun exQ "op" ["a", "b", "c"] 0 (fun _ => true)).1 =
      (List.range 3).map (fun j => IndexEvent.progress (100 * (j + 1) / 3)) ++
        [IndexEvent.completed "op"] ∧
    (progressValues
        (featureIndexerRun exQ "op" ["a", "b", "c"] 0 (fun _ => true)).1).Pairwise
      (· ≤ ·) :=
  C5_progress_truncation exQ "op" ["a", "b", "c"] 0 3 (by decide) (by decide)

/-- C6: the merge step deduplicates by path (no path appears twice in
its output), keeps for every path the maximum score over all its
occurrences in the merged input, and sorts by descending score; in
particular [(A,0.3),(B,0.9),(A,0.7)] merges to [(B,0.9),(A,0.7)], and
two stores both holding path P with similarities 0.6 and 0.9 yield,
for threshold 0.5, P exactly once with score 0.9. -/
theorem C6_merge_semantics :
    (∀ l : List (String × ℚ),
      ((mergeStep l).map Prod.fst).Nodup ∧
      (mergeStep l).Pairwise scoreLE ∧
      (∀ p s, ((p, s) ∈ mergeStep l ↔ bestScore? p l = some s))) ∧
    mergeStep [("A", 3 / 10), ("B", 9 / 10), ("A", 7 / 10)] =
      [("B", 9 / 10), ("A", 7 / 10)] ∧
    (search_in_multiple_indexes storageC6 availQ opsQ fsAll ⟨[]⟩ (0 : ℚ)
        ["k1", "k2"] (1 / 2) 0).2 = [("P", 9 / 10)] := by
  refine ⟨fun l => ⟨mergeStep_keys_nodup l, mergeStep_pairwise l,
    fun p s => mem_mergeStep l p s⟩, ?_, ?_⟩
  · rw [threeTenths_eq, nineTenths_eq, sevenTenths_eq]
    decide
  · rw [half_eq, nineTenths_eq]
    decide

/-- C7: for both the single-index search (with the record cached and
its extractor available) and the linear scan (query extracted, folder
non-empty, no cancellation), limit 0 returns every qualifying result
(the full descending-sorted list of kept pairs) and limit N > 0
returns the first N of that sorted list — at most N results, and every
returned result scores at least as high as every qualifying result
left out. -/
theorem C7_limit_semantics {F : Type} (storage : String → Option (IndexData F))
    (avail : List (Extractor F)) (ops : PyOps F) (fsExists : String → Bool)
    (proc : BatchSearchProcessor F) (query : F) (key : String) (thr : ℚ)
    {data : IndexData F} {extractor : Extractor F}
    (h1 : dictFind? proc.indexes key = some data)
    (h2 : avail.find? (fun ex => ex.name == data.extractor_name) = some extractor) :
    ((search_in_index storage avail ops fsExists proc query key thr 0).2.1 =
      sortDesc (scanEntries ops extractor fsExists (ops.flat query) thr data.features).1) ∧
    (∀ x, x ∈ (search_in_index storage avail ops fsExists proc query key thr 0).2.1 ↔
      x ∈ (scanEntries ops extractor fsExists (ops.flat query) thr data.features).1) ∧
    (∀ N, 0 < N →
      (search_in_index storage avail ops fsExists proc query key thr N).2.1 =
        (sortDesc (scanEntries ops extractor fsExists (ops.flat query) thr data.features).1).take N ∧
      (search_in_index storage avail ops fsExists proc query key thr N).2.1.length ≤ N ∧
      (∀ x ∈ (search_in_index storage avail ops fsExists proc query key thr N).2.1,
       ∀ y ∈ (sortDesc (scanEntries ops extractor fsExists (ops.flat query) thr data.features).1).drop N,
        y.2 ≤ x.2)) ∧
    (∀ (extractor2 : Extractor F) (qp : String) (qf : F) (files : List String),
      extractor2.extract_features qp = some qf → 0 < ops.flen qf →
      0 < files.length →
      (searchWorkerRun ops extractor2 thr 0 qp files (fun _ => true) =
        (List.range files.length).map
            (fun j => SearchEvent.progress (100 * j / files.length)) ++
          [SearchEvent.resultReady (sortDesc (workerKept ops extractor2 qf thr files)),
           SearchEvent.progress 100]) ∧
      (∀ N, 0 < N →
        searchWorkerRun ops extractor2 thr N qp files (fun _ => true) =
          (List.range files.length).map
              (fun j => SearchEvent.progress (100 * j / files.length)) ++
            [SearchEvent.resultReady
               ((sortDesc (workerKept ops extractor2 qf thr files)).take N),
             SearchEvent.progress 100] ∧
        ((sortDesc (workerKept ops extractor2 qf thr files)).take N).length ≤ N ∧
        (∀ x ∈ (sortDesc (workerKept ops extractor2 qf thr files)).take N,
         ∀ y ∈ (sortDesc (workerKept ops extractor2 qf thr files)).drop N,
          y.2 ≤ x.2))) := by
  have hsearch : ∀ maxr,
      (search_in_index storage avail ops fsExists proc query key thr maxr).2.1 =
        (if 0 < maxr then
          (sortDesc (scanEntries ops extractor fsExists (ops.flat query) thr data.features).1).take maxr
        else
          sortDesc (scanEntries ops extractor fsExists (ops.flat query) thr data.features).1) := by
    intro maxr
    rw [search_in_index_cached storage avail ops fsExists proc query key thr maxr h1,
      search_in_index_core_found avail ops fsExists query data thr maxr h2]
  refine ⟨?_, ?_, ?_, ?_⟩
  · rw [hsearch 0, if_neg (lt_irrefl 0)]
  · intro x
    rw [hsearch 0, if_neg (lt_irrefl 0), mem_sortDesc]
  · intro N hN
    refine ⟨by rw [hsearch N, if_pos hN], ?_, ?_⟩
    · rw [hsearch N, if_pos hN]
      exact length_take_le _ N
    · intro x hx y hy
      rw [hsearch N, if_pos hN] at hx
      exact pairwise_take_drop_le (sortDesc_pairwise _) hx hy
  · intro extractor2 qp qf files hq hl hn0
    constructor
    · rw [searchWorkerRun_complete ops extractor2 thr 0 qp qf files hq hl hn0,
        if_neg (lt_irrefl 0)]
    · intro N hN
      refine ⟨by rw [searchWorkerRun_complete ops extractor2 thr N qp qf files hq hl hn0,
        if_pos hN], length_take_le _ N, ?_⟩
      intro x hx y hy
      exact pairwise_take_drop_le (sortDesc_pairwise _) hx hy

/-- C7, witness. -/
theorem C7_limit_semantics_witness :
    ((search_in_index storageOld availQ opsQ fsAll
        ⟨[("k", ⟨[("P", nineTenths)], "E", 0⟩)]⟩ (0 : ℚ) "k" 0 0).2.1 =
      sortDesc (scanEntries opsQ exQ fsAll (opsQ.flat 0) 0
        (IndexData.features ⟨[("P", nineTenths)], "E", 0⟩)).1) ∧
    (∀ x, x ∈ (search_in_index storageOld availQ opsQ fsAll
        ⟨[("k", ⟨[("P", nineTenths)], "E", 0⟩)]⟩ (0 : ℚ) "k" 0 0).2.1 ↔
      x ∈ (scanEntries opsQ exQ fsAll (opsQ.flat 0) 0
        (IndexData.features ⟨[("P", nineTenths)], "E", 0⟩)).1) ∧
    (∀ N, 0 < N →
      (search_in_index storageOld availQ opsQ fsAll
          ⟨[("k", ⟨[("P", nineTenths)], "E", 0⟩)]⟩ (0 : ℚ) "k" 0 N).2.1 =
        (sortDesc (scanEntries opsQ exQ fsAll (opsQ.flat 0) 0
          (IndexData.features ⟨[("P", nineTenths)], "E", 0⟩)).1).take N ∧
      (search_in_index storageOld availQ opsQ fsAll
          ⟨[("k", ⟨[("P", nineTenths)], "E", 0⟩)]⟩ (0 : ℚ) "k" 0 N).2.1.length ≤ N ∧
      (∀ x ∈ (search_in_index storageOld availQ opsQ fsAll
          ⟨[("k", ⟨[("P", nineTenths)], "E", 0⟩)]⟩ (0 : ℚ) "k" 0 N).2.1,
       ∀ y ∈ (sortDesc (scanEntries opsQ exQ fsAll (opsQ.flat 0) 0
          (IndexData.features ⟨[("P", nineTenths)], "E", 0⟩)).1).drop N,
        y.2 ≤ x.2)) ∧
    (∀ (extractor2 : Extractor ℚ) (qp : String) (qf : ℚ) (files : List String),
      extractor2.extract_features qp = some qf → 0 < opsQ.flen qf →
      0 < files.length →
      (searchWorkerRun opsQ extractor2 0 0 qp files (fun _ => true) =
        (List.range files.length).map
            (fun j => SearchEvent.progress (100 * j / files.length)) ++
          [SearchEvent.resultReady (sortDesc (workerKept opsQ extractor2 qf 0 files)),
           SearchEvent.progress 100]) ∧
      (∀ N, 0 < N →
        searchWorkerRun opsQ extractor2 0 N qp files (fun _ => true) =
          (List.range files.length).map
              (fun j => SearchEvent.progress (100 * j / files.length)) ++
            [SearchEvent.resultReady
               ((sortDesc (workerKept opsQ extractor2 qf 0 files)).take N),
             SearchEvent.progress 100] ∧
        ((sortDesc (workerKept opsQ extractor2 qf 0 files)).take N).length ≤ N ∧
        (∀ x ∈ (sortDesc (workerKept opsQ extractor2 qf 0 files)).take N,
         ∀ y ∈ (sortDesc (workerKept opsQ extractor2 qf 0 files)).drop N,
          y.2 ≤ x.2))) :=
  C7_limit_semantics storageOld availQ opsQ fsAll
    ⟨[("k", ⟨[("P", nineTenths)], "E", 0⟩)]⟩ (0 : ℚ) "k" 0
    (by decide) rfl

/-- C8, amended.  Caching is per `BatchSearchProcessor` instance, not
process-wide: on a processor whose cache already holds a storage key,
`search_in_index` performs no storage read, leaves the processor
unchanged, and computes its result from the cached record regardless
of what storage now holds; and a cache miss with a successful load
leaves the loaded record cached in that processor.  (Each
`IndexedSearchWorker` builds a fresh processor, so this cache does not
survive across searches; see the counterexample.) -/
theorem C8_cache_per_instance {F : Type} :
    (∀ (storage storage' : String → Option (IndexData F))
       (avail : List (Extractor F)) (ops : PyOps F) (fsExists : String → Bool)
       (proc : BatchSearchProcessor F) (query : F) (key : String) (thr : ℚ)
       (N : Nat) (data : IndexData F),
       dictFind? proc.indexes key = some data →
       search_in_index storage avail ops fsExists proc query key thr N =
         (proc, search_in_index_core avail ops fsExists query data thr N, 0) ∧
       search_in_index storage avail ops fsExists proc query key thr N =
         search_in_index storage' avail ops fsExists proc query key thr N) ∧
    (∀ (storage : String → Option (IndexData F)) (avail : List (Extractor F))
       (ops : PyOps F) (fsExists : String → Bool)
       (proc : BatchSearchProcessor F) (query : F) (key : String) (thr : ℚ)
       (N : Nat) (d : IndexData F),
       storage key = some d → dictFind? proc.indexes key = none →
       dictFind?
         (search_in_index storage avail ops fsExists proc query key thr N).1.indexes
         key = some d) := by
  constructor
  · intro storage storage' avail ops fsExists proc query key thr N data h1
    refine ⟨search_in_index_cached storage avail ops fsExists proc query key thr N h1, ?_⟩
    rw [search_in_index_cached storage avail ops fsExists proc query key thr N h1,
      search_in_index_cached storage' avail ops fsExists proc query key thr N h1]
  · intro storage avail ops fsExists proc query key thr N d hs h1
    rw [search_in_index_miss_load storage avail ops fsExists proc query key thr N h1 hs]
    exact dictFind?_dictSet_self proc.indexes key d

/-- C8, witness for the amended statement. -/
theorem C8_cache_per_instance_witness :
    (search_in_index storageNew availQ opsQ fsAll
        ⟨[("k", ⟨[("P", nineTenths)], "E", 0⟩)]⟩ (0 : ℚ) "k" 0 0 =
      (⟨[("k", ⟨[("P", nineTenths)], "E", 0⟩)]⟩,
       search_in_index_core availQ opsQ fsAll (0 : ℚ) ⟨[("P", nineTenths)], "E", 0⟩ 0 0,
       0) ∧
     search_in_index storageNew availQ opsQ fsAll
        ⟨[("k", ⟨[("P", nineTenths)], "E", 0⟩)]⟩ (0 : ℚ) "k" 0 0 =
      search_in_index storageOld availQ opsQ fsAll
        ⟨[("k", ⟨[("P", nineTenths)], "E", 0⟩)]⟩ (0 : ℚ) "k" 0 0) ∧
    dictFind?
      (search_in_index storageOld availQ opsQ fsAll ⟨[]⟩ (0 : ℚ) "k" 0 0).1.indexes
      "k" = some ⟨[("P", nineTenths)], "E", 0⟩ :=
  ⟨C8_cache_per_instance.1 storageNew storageOld availQ opsQ fsAll
      ⟨[("k", ⟨[("P", nineTenths)], "E", 0⟩)]⟩ (0 : ℚ) "k" 0 0
      ⟨[("P", nineTenths)], "E", 0⟩ (by decide),
   C8_cache_per_instance.2 storageOld availQ opsQ fsAll ⟨[]⟩ (0 : ℚ) "k" 0 0
      ⟨[("P", nineTenths)], "E", 0⟩ (by decide) (by decide)⟩

/-- C10: a failed index load yields an empty result list (and one
failed storage read) rather than an error; a loaded record whose
extractor name matches no available extractor yields an empty result
list; and an entry whose flattened feature shape differs from the
flattened query shape is dropped from the results without
`compare_features` ever being called on it. -/
theorem C10_defensive_search {F : Type} :
    (∀ (storage : String → Option (IndexData F)) (avail : List (Extractor F))
       (ops : PyOps F) (fsExists : String → Bool)
       (proc : BatchSearchProcessor F) (query : F) (key : String) (thr : ℚ)
       (N : Nat),
       dictFind? proc.indexes key = none → storage key = none →
       search_in_index storage avail ops fsExists proc query key thr N =
         (proc, [], 1)) ∧
    (∀ (storage : String → Option (IndexData F)) (avail : List (Extractor F))
       (ops : PyOps F) (fsExists : String → Bool)
       (proc : BatchSearchProcessor F) (query : F) (key : String) (thr : ℚ)
       (N : Nat) (data : IndexData F),
       dictFind? proc.indexes key = some data →
       avail.find? (fun ex => ex.name == data.extractor_name) = none →
       (search_in_index storage avail ops fsExists proc query key thr N).2.1 = []) ∧
    (∀ (storage : String → Option (IndexData F)) (avail : List (Extractor F))
       (ops : PyOps F) (fsExists : String → Bool)
       (proc : BatchSearchProcessor F) (query : F) (key : String) (thr : ℚ)
       (N : Nat) (data : IndexData F) (extractor : Extractor F) (p : String)
       (fv : F) (s1 s2 : List Nat),
       dictFind? proc.indexes key = some data →
       avail.find? (fun ex => ex.name == data.extractor_name) = some extractor →
       (data.features.map Prod.fst).Nodup → (p, fv) ∈ data.features →
       fsExists p = true → ops.shape (ops.flat query) = some s1 →
       ops.shape (ops.flat fv) = some s2 → s1 ≠ s2 →
       (∀ s, (p, s) ∉ (search_in_index storage avail ops fsExists proc query key thr N).2.1) ∧
       p ∉ (scanEntries ops extractor fsExists (ops.flat query) thr data.features).2) := by
  refine ⟨?_, ?_, ?_⟩
  · intro storage avail ops fsExists proc query key thr N h1 hs
    exact search_in_index_miss_fail storage avail ops fsExists proc query key thr N h1 hs
  · intro storage avail ops fsExists proc query key thr N data h1 h2
    rw [search_in_index_cached storage avail ops fsExists proc query key thr N h1,
      search_in_index_core_not_found avail ops fsExists query data thr N h2]
  · intro storage avail ops fsExists proc query key thr N data extractor p fv s1 s2
      h1 h2 hnd hmem hfs hq hfv hne
    have hscan := scanEntries_mismatch_not_mem ops extractor fsExists
      (ops.flat query) thr data.features p fv hnd hmem hfs hq hfv hne
    refine ⟨?_, hscan.2⟩
    intro s hs
    rw [search_in_index_cached storage avail ops fsExists proc query key thr N h1,
      search_in_index_core_found avail ops fsExists query data thr N h2] at hs
    by_cases hN : 0 < N
    · rw [if_pos hN] at hs
      exact hscan.1 s (mem_sortDesc.mp (List.mem_of_mem_take hs))
    · rw [if_neg hN] at hs
      exact hscan.1 s (mem_sortDesc.mp hs)

/-- C10, witness. -/
theorem C10_defensive_search_witness :
    (search_in_index (fun _ => none) availQ opsQ fsAll ⟨[]⟩ (0 : ℚ) "k" 0 0 =
      (⟨[]⟩, [], 1)) ∧
    ((search_in_index storageOld availQ opsQ fsAll ⟨[("k", dataX)]⟩ (0 : ℚ)
        "k" 0 0).2.1 = []) ∧
    ((∀ s, ("bad", s) ∉
        (search_in_index (fun _ => none) availL opsL fsAll ⟨[("k", dataL)]⟩
          [0] "k" 0 0).2.1) ∧
     "bad" ∉ (scanEntries opsL exL fsAll (opsL.flat [0]) 0 dataL.features).2) :=
  ⟨C10_defensive_search.1 (fun _ => none) availQ opsQ fsAll ⟨[]⟩ (0 : ℚ) "k" 0 0
      (by decide) rfl,
   C10_defensive_search.2.1 storageOld availQ opsQ fsAll ⟨[("k", dataX)]⟩ (0 : ℚ)
      "k" 0 0 dataX (by decide) rfl,
   C10_defensive_search.2.2 (fun _ => none) availL opsL fsAll ⟨[("k", dataL)]⟩
      [0] "k" 0 0 dataL exL "bad" [1, 2] [1] [2]
      (by decide) rfl (by decide) (by decide) (by decide) (by decide)
      (by decide) (by decide)⟩

end ImageSearch
